import Mathlib

/-!
A shallow embedding of `src/scraper.py` (Alberta purchasing-site scraper) and
proofs about it.  The scraper's pure control logic is translated into Lean
functions; interactions with the browser session (element queries, clicks,
keystrokes, the wall clock) are made explicit parameters: a poll loop receives
the sequence of values its repeated driver query would observe, a navigation
attempt receives the booleans saying which driver interactions succeed, a card
receives the results of the three element reads performed on it.  Fallible
driver calls are modelled with `Except Unit`, absent elements/attributes with
`Option`, Python's mutable `set` with an explicitly threaded `List String`,
and time with `ℚ` (seconds), where the elapsed time of a poll loop is the sum
of its sleeps.
-/

/- ==============================
   CONFIG (src/scraper.py lines 20-36)
   ============================== -/

def URL : String := "https://purchasing.alberta.ca/search"

def WAIT_TIMEOUT : ℚ := 35

def BASE_RATE_LIMIT : ℚ := 0.7

def MAX_RETRIES_PER_PAGE : ℕ := 5

/- ==============================
   FINGERPRINTS
   ============================== -/

/-- A page fingerprint: the `(innerText, href)` pair of the first result card's
link, as produced by `first_result_fingerprint` (scraper.py lines 146-148).
`("", "")` is the sentinel for "no content observed". -/
abbrev Fingerprint := String × String

/- ==============================
   WAITS (src/scraper.py lines 159-175)
   ==============================
   Both wait loops have the shape

     t0 = time.time()
     while time.time() - t0 < timeout:
         <evaluate predicate>; if true: return True
         time.sleep(interval)
     raise TimeoutException

   We model the predicate's value at poll `i` as `pred i`, and the elapsed
   time observed at the `i`-th evaluation of the `while` condition as
   `i * interval` (the `i` sleeps performed so far; the polls themselves are
   instantaneous in the model).  `some i` models returning `True` at poll `i`;
   `none` models raising `TimeoutException`. -/

def waitLoop (pred : ℕ → Bool) (timeout interval : ℚ) : ℕ → ℕ → Option ℕ
  | _, 0 => none
  | i, fuel + 1 =>
    if (i : ℚ) * interval < timeout then
      if pred i then some i else waitLoop pred timeout interval (i + 1) fuel
    else none

/-- Enough iterations that running out of fuel can only happen after the
elapsed time has reached `timeout` (for positive `interval`). -/
def waitFuel (timeout interval : ℚ) : ℕ :=
  (Int.ceil (timeout / interval)).toNat + 1

def waitUntil (pred : ℕ → Bool) (timeout interval : ℚ) : Option ℕ :=
  waitLoop pred timeout interval 0 (waitFuel timeout interval)

/-- `wait_for_page_change` (scraper.py lines 168-175): polls the first-result
fingerprint every 0.3 s until it is non-sentinel and different from `prev_fp`.
`fps i` is the fingerprint `first_result_fingerprint` would observe at poll
`i`. -/
def wait_for_page_change (fps : ℕ → Fingerprint) (prev_fp : Fingerprint)
    (timeout : ℚ) : Option ℕ :=
  waitUntil (fun i => decide (fps i ≠ ("", "") ∧ fps i ≠ prev_fp)) timeout 0.3

/- ==============================
   BACKOFF (src/scraper.py line 282)
   ============================== -/

/-- The base sleep of `goto_page`'s retry backoff, excluding the random
jitter: `BASE_RATE_LIMIT + attempt * 1.2`. -/
def backoff_base (attempt : ℕ) : ℚ := BASE_RATE_LIMIT + attempt * 1.2

/- ==============================
   DEEP DOM QUERY (src/scraper.py lines 48-63, 140-141)
   ============================== -/

/-- A DOM element as the deep query logic sees it: whether it matches the
query's selector (CSS matching itself is abstracted to a per-element flag),
its shadow root (`none` when the element hosts none, `some` the shadow tree's
top-level elements when it does), and its light-DOM children. -/
inductive Node where
  | mk (selMatch : Bool) (shadowRoot : Option (List Node)) (children : List Node)

def Node.selMatch : Node → Bool
  | .mk s _ _ => s

def Node.shadowRoot : Node → Option (List Node)
  | .mk _ sh _ => sh

def Node.children : Node → List Node
  | .mk _ _ ch => ch

/-- Truthiness of `node.shadowRoot` in `allShadowHosts` (scraper.py line 54). -/
def Node.hasShadow (n : Node) : Bool := n.shadowRoot.isSome

/-- The forest under an element's shadow root (empty when it hosts none). -/
def Node.shadowForest (n : Node) : List Node := n.shadowRoot.getD []

mutual
/-- The elements of `n`'s subtree in document order (pre-order), without
descending into shadow roots: the sequence a `TreeWalker(root, SHOW_ELEMENT)`
or a plain `root.querySelectorAll` walks. -/
def lightNode : Node → List Node
  | .mk s sh ch => .mk s sh ch :: lightForest ch

def lightForest : List Node → List Node
  | [] => []
  | n :: ns => lightNode n ++ lightForest ns
end

mutual
def nodeSize : Node → ℕ
  | .mk _ sh ch => 1 + optSize sh + forestSize ch

def optSize : Option (List Node) → ℕ
  | none => 0
  | some l => 1 + forestSize l

def forestSize : List Node → ℕ
  | [] => 0
  | n :: ns => nodeSize n + forestSize ns
end

mutual
theorem size_le_of_mem_lightNode : ∀ (n h : Node), h ∈ lightNode n → nodeSize h ≤ nodeSize n
  | .mk s sh ch, h, hm => by
    rw [lightNode] at hm
    rcases List.mem_cons.mp hm with rfl | hm'
    · exact le_refl _
    · have := size_le_of_mem_lightForest ch h hm'
      rw [nodeSize]; omega

theorem size_le_of_mem_lightForest : ∀ (F : List Node) (h : Node), h ∈ lightForest F → nodeSize h ≤ forestSize F
  | [], h, hm => by rw [lightForest] at hm; simp at hm
  | n :: ns, h, hm => by
    rw [lightForest] at hm
    rcases List.mem_append.mp hm with hm' | hm'
    · have := size_le_of_mem_lightNode n h hm'
      rw [forestSize]; omega
    · have := size_le_of_mem_lightForest ns h hm'
      rw [forestSize]; omega
end

theorem shadowForest_size_lt (n : Node) : forestSize n.shadowForest < nodeSize n := by
  obtain ⟨s, sh, ch⟩ := n
  cases sh with
  | none => simp [Node.shadowForest, Node.shadowRoot, nodeSize, optSize, forestSize]
  | some l =>
    simp only [Node.shadowForest, Node.shadowRoot, Option.getD, nodeSize, optSize]
    omega

/-- `allShadowHosts(root)` (scraper.py lines 50-56): the elements of the light
tree under `root`, in document order, that host a shadow root. -/
def allShadowHosts (forest : List Node) : List Node :=
  (lightForest forest).filter Node.hasShadow

/-- `root.querySelectorAll(sel)` (scraper.py line 58): the selector's matches
in the light tree under `root`, in document order. -/
def querySelectorAllF (forest : List Node) : List Node :=
  (lightForest forest).filter Node.selMatch

/-- `deepQuerySelectorAll(root, sel)` (scraper.py lines 57-61), run by
`qsa_all_shadow` (line 140): the light-tree matches under `root` first, then,
for each shadow host of the light tree in document order, the same query run
recursively on that host's shadow tree. -/
def deepQuerySelectorAll (forest : List Node) : List Node :=
  querySelectorAllF forest ++
    (allShadowHosts forest).attach.flatMap
      (fun h => deepQuerySelectorAll h.1.shadowForest)
termination_by forestSize forest
decreasing_by
  have hm : h.1 ∈ lightForest forest := (List.mem_filter.mp h.2).1
  calc forestSize h.1.shadowForest < nodeSize h.1 := shadowForest_size_lt h.1
  _ ≤ forestSize forest := size_le_of_mem_lightForest forest h.1 hm

mutual
/-- The composed tree's elements: at each element, its light children and its
shadow tree are both descended, so every element reachable through any nesting
of shadow roots is listed exactly once. -/
def composedNode : Node → List Node
  | .mk s sh ch => .mk s sh ch :: (composedForest ch ++ composedOpt sh)

def composedOpt : Option (List Node) → List Node
  | none => []
  | some l => composedForest l

def composedForest : List Node → List Node
  | [] => []
  | n :: ns => composedNode n ++ composedForest ns
end

/-- `wait_for_any_result` (scraper.py lines 159-166): polls
`qsa_all_shadow(drv, CSS_RESULTS_SEL)` every 0.4 s until the returned list is
non-empty. `doms i` is the document's forest at poll `i`. -/
def wait_for_any_result (doms : ℕ → List Node) (timeout : ℚ) : Option ℕ :=
  waitUntil (fun i => !(deepQuerySelectorAll (doms i)).isEmpty) timeout 0.4

/- ==============================
   RECORD EXTRACTION (src/scraper.py lines 180-209)
   ============================== -/

/-- A link element inside a card: the two attribute reads `parse_current_page`
performs on it. `Except.error` models a raised WebDriver exception, the inner
`Option` a `null` attribute. -/
structure LinkEl where
  innerText : Except Unit (Option String)
  href : Except Unit (Option String)

/-- A description element: the one attribute read performed on it. -/
structure DescEl where
  innerText : Except Unit (Option String)

/-- One listing card, reduced to the results of the two element queries
`parse_current_page` runs against it: the link lookup (line 187) and the
description lookup (line 199). -/
structure Card where
  linkQuery : Except Unit (Option LinkEl)
  descQuery : Except Unit (Option DescEl)

/-- An output record, `{"Title": ..., "URL": ..., "Description": ...}`
(scraper.py line 205). -/
structure Record where
  title : String
  url : String
  description : Option String
deriving DecidableEq

def charsStart : List Char → List Char → Bool
  | [], _ => true
  | _ :: _, [] => false
  | p :: ps, c :: cs => (p == c) && charsStart ps cs

/-- Whether `s` starts with `p`. -/
def strStarts (s p : String) : Bool := charsStart p.data s.data

/-- Python's `str.strip()`: whitespace dropped from both ends. -/
def pyStrip (s : String) : String :=
  String.mk ((s.data.dropWhile Char.isWhitespace).reverse.dropWhile Char.isWhitespace).reverse

def hasHTTPScheme (url : String) : Bool :=
  strStarts url "http://" || strStarts url "https://"

/-- Model of `urllib.parse.urljoin(URL, url)` (scraper.py line 197) for the
fixed base `URL = "https://purchasing.alberta.ca/search"`: covers the empty
reference, absolute http(s) URLs, scheme-relative, root-relative and plain
relative path references (the reference forms a card's href can take). -/
def urljoinSeed (url : String) : String :=
  if url = "" then URL
  else if hasHTTPScheme url then url
  else if strStarts url "//" then "https:" ++ url
  else if strStarts url "/" then "https://purchasing.alberta.ca" ++ url
  else "https://purchasing.alberta.ca/" ++ url

/-- The `per_page_max and idx >= per_page_max` guard (scraper.py line 184),
with Python truthiness: `None` and `0` are falsy, so only a non-zero cap can
trigger the break. -/
def capHit (per_page_max : Option ℕ) (idx : ℕ) : Bool :=
  match per_page_max with
  | none => false
  | some k => !(k == 0) && decide (k ≤ idx)

/-- The body of `parse_current_page`'s per-card `try` block (scraper.py lines
186-206): `Except.error ()` when any of the element/attribute operations
raises, `Except.ok none` when the card is skipped by a `continue` (no link,
empty href, or href already in `seen`), and `Except.ok (some (r, u))` when a
record `r` is produced and `u` is the resolved URL added to `seen`.  Note the
`seen` membership test uses the raw href before `urljoin`, while the stored
URL is the resolved one — exactly as in the source. -/
def processCard (c : Card) (seen : List String) :
    Except Unit (Option (Record × String)) :=
  match c.linkQuery with
  | .error e => .error e
  | .ok none => .ok none
  | .ok (some link) =>
    match link.innerText with
    | .error e => .error e
    | .ok t =>
      let title := pyStrip (t.getD "")
      match link.href with
      | .error e => .error e
      | .ok h =>
        let url := pyStrip (h.getD "")
        if url = "" ∨ url ∈ seen then .ok none
        else
          let url2 := urljoinSeed url
          match c.descQuery with
          | .error e => .error e
          | .ok none => .ok (some (⟨title, url2, none⟩, url2))
          | .ok (some d) =>
            match d.innerText with
            | .error e => .error e
            | .ok dt => .ok (some (⟨title, url2, some (pyStrip (dt.getD ""))⟩, url2))

/-- The card loop of `parse_current_page` (scraper.py lines 183-209): `idx`
is the `enumerate` index, `seen` the mutable set threaded through, the first
component of the result the `out` list, the second the final `seen`. -/
def parse_go (per_page_max : Option ℕ) : List Card → ℕ → List String → List Record × List String
  | [], _, seen => ([], seen)
  | c :: rest, idx, seen =>
    if capHit per_page_max idx then ([], seen)
    else
      match processCard c seen with
      | .error _ => parse_go per_page_max rest (idx + 1) seen
      | .ok none => parse_go per_page_max rest (idx + 1) seen
      | .ok (some (r, u)) =>
        let p := parse_go per_page_max rest (idx + 1) (u :: seen)
        (r :: p.1, p.2)

/-- `parse_current_page(drv, per_page_max, seen)` (scraper.py lines 180-209),
with the rendered cards passed explicitly. -/
def parse_current_page (cards : List Card) (per_page_max : Option ℕ)
    (seen : List String) : List Record × List String :=
  parse_go per_page_max cards 0 seen

/-- The records the main loop of `run` (scraper.py lines 312-330) appends to
the output file over a whole run: `parse_current_page` on each page's cards in
order, threading the run's single `seen` set, which starts empty (line 294). -/
def run_emitted (pages : List (List Card)) (per_page_max : Option ℕ) :
    List Record :=
  (pages.foldl
    (fun acc pg =>
      let p := parse_current_page pg per_page_max acc.2
      (acc.1 ++ p.1, p.2))
    (([], []) : List Record × List String)).1

/- ==============================
   NAVIGATION (src/scraper.py lines 214-287)
   ============================== -/

/-- One candidate element of `try_click_numeric_link`'s loop (scraper.py lines
249-266): whether the reads and the child-query of its body succeed (outer
`try`), and whether the native and the synthetic click succeed. -/
structure ClickCand where
  readOk : Bool
  nativeClickOk : Bool
  syntheticClickOk : Bool

/-- A candidate makes `try_click_numeric_link` return `True` when its body
completes: the reads succeed and either the native `el.click()` or, after a
`WebDriverException`, the synthetic `arguments[0].click()` succeeds. -/
def candSucceeds (c : ClickCand) : Bool :=
  c.readOk && (c.nativeClickOk || c.syntheticClickOk)

/-- `try_click_numeric_link` (scraper.py lines 246-267): first candidate whose
click sequence completes wins; a candidate whose body raises is skipped. -/
def try_click_numeric_link : List ClickCand → Bool
  | [] => false
  | c :: rest => if candSucceeds c then true else try_click_numeric_link rest

/-- The environment one attempt of `goto_page` runs in: whether the deep query
for the page-number input finds any field, whether native typing
(`focus/clear/send_keys`) succeeds, whether the synthetic
input/keydown/keyup dispatch succeeds, the candidates Strategy B would
iterate over, and whether `wait_for_page_change` confirms the transition
within this attempt's timeout. -/
structure AttemptEnv where
  inputsFound : Bool
  nativeTypeOk : Bool
  syntheticTypeOk : Bool
  clickHits : List ClickCand
  waitOk : Bool

/-- `try_type_page_number` (scraper.py lines 214-244): `False` when no input
field is found; with a field, native interaction first, then the synthetic
events fallback, `False` only if both raise. -/
def try_type_page_number (e : AttemptEnv) : Bool :=
  if e.inputsFound then
    if e.nativeTypeOk then true
    else if e.syntheticTypeOk then true
    else false
  else false

/-- In `goto_page` (scraper.py lines 272-274), Strategy B runs exactly when
`try_type_page_number` returned `False`. -/
def strategyB_attempted (e : AttemptEnv) : Bool :=
  !try_type_page_number e

/-- An attempt reaches the `return` (scraper.py lines 275-278) iff one of the
two strategies reported an interaction and `wait_for_page_change` then
succeeded. -/
def attempt_confirmed (e : AttemptEnv) : Bool :=
  (try_type_page_number e || try_click_numeric_link e.clickHits) && e.waitOk

/-- The `for attempt in range(1, MAX_RETRIES_PER_PAGE + 1)` loop of
`goto_page` (scraper.py lines 271-287) over the remaining attempt numbers:
returns (number of attempts made, `some a` when the call returned during
attempt `a`, `none` when the loop ended and the `RuntimeError` was raised). -/
def goto_go (envs : ℕ → AttemptEnv) : List ℕ → ℕ → ℕ × Option ℕ
  | [], made => (made, none)
  | a :: rest, made =>
    if attempt_confirmed (envs a) then (made + 1, some a)
    else goto_go envs rest (made + 1)

/-- `goto_page(drv, target_page, prev_fp)` (scraper.py lines 269-287), the
environment of attempt `a` given by `envs a`. -/
def goto_page (envs : ℕ → AttemptEnv) : ℕ × Option ℕ :=
  goto_go envs (List.range' 1 MAX_RETRIES_PER_PAGE) 0

/- ==============================
   CONCRETE INPUTS
   ============================== -/

/-- A card whose link carries an absolute href. -/
def cardAbs : Card :=
  { linkQuery := .ok (some
      { innerText := .ok (some "Posting Ten")
        href := .ok (some "https://purchasing.alberta.ca/posting/10") })
    descQuery := .ok none }

/-- A card whose link carries the same posting as `cardAbs`, written as a
root-relative href. -/
def cardRel : Card :=
  { linkQuery := .ok (some
      { innerText := .ok (some "Posting Ten")
        href := .ok (some "/posting/10") })
    descQuery := .ok none }

/-- A card with a distinct posting. -/
def cardOther : Card :=
  { linkQuery := .ok (some
      { innerText := .ok (some "Posting Eleven")
        href := .ok (some "/posting/11") })
    descQuery := .ok none }

/-- A card whose link lookup raises. -/
def cardFailing : Card :=
  { linkQuery := .error ()
    descQuery := .ok none }

/- ==============================
   WAIT-ENGINE LEMMAS
   ============================== -/

theorem waitLoop_some (pred : ℕ → Bool) (timeout interval : ℚ) :
    ∀ fuel i j, waitLoop pred timeout interval i fuel = some j →
      pred j = true ∧ (j : ℚ) * interval < timeout ∧ i ≤ j := by
  intro fuel
  induction fuel with
  | zero => intro i j h; simp [waitLoop] at h
  | succ n ih =>
    intro i j h
    rw [waitLoop] at h
    by_cases htime : (i : ℚ) * interval < timeout
    · rw [if_pos htime] at h
      by_cases hp : pred i = true
      · rw [if_pos hp] at h
        obtain rfl : i = j := by simpa using h
        exact ⟨hp, htime, le_refl i⟩
      · rw [if_neg hp] at h
        obtain ⟨h1, h2, h3⟩ := ih (i + 1) j h
        exact ⟨h1, h2, le_trans (Nat.le_succ i) h3⟩
    · rw [if_neg htime] at h
      exact absurd h (by simp)

theorem waitLoop_none (pred : ℕ → Bool) (timeout interval : ℚ) (hiv : 0 < interval) :
    ∀ (fuel i : ℕ), timeout ≤ ((i : ℚ) + (fuel : ℚ)) * interval →
      waitLoop pred timeout interval i fuel = none →
      ∀ j, i ≤ j → (j : ℚ) * interval < timeout → pred j = false := by
  intro fuel
  induction fuel with
  | zero =>
    intro i hcov _ j hij hj
    exfalso
    have hc : (i : ℚ) ≤ (j : ℚ) := by exact_mod_cast hij
    push_cast at hcov
    nlinarith
  | succ n ih =>
    intro i hcov h j hij hj
    rw [waitLoop] at h
    by_cases htime : (i : ℚ) * interval < timeout
    · rw [if_pos htime] at h
      by_cases hp : pred i = true
      · rw [if_pos hp] at h; exact absurd h (by simp)
      · rw [if_neg hp] at h
        rcases Nat.eq_or_lt_of_le hij with rfl | hlt
        · exact Bool.eq_false_iff.mpr hp
        · refine ih (i + 1) ?_ h j hlt hj
          push_cast at hcov ⊢
          calc timeout ≤ ((i : ℚ) + ((n : ℚ) + 1)) * interval := hcov
          _ = ((i : ℚ) + 1 + (n : ℚ)) * interval := by ring
    · exfalso
      have hc : (i : ℚ) ≤ (j : ℚ) := by exact_mod_cast hij
      nlinarith [not_lt.mp htime]

theorem waitUntil_some (pred : ℕ → Bool) (timeout interval : ℚ) (j : ℕ)
    (h : waitUntil pred timeout interval = some j) :
    pred j = true ∧ (j : ℚ) * interval < timeout :=
  ⟨(waitLoop_some pred timeout interval _ 0 j h).1,
   (waitLoop_some pred timeout interval _ 0 j h).2.1⟩

theorem waitFuel_covers (timeout interval : ℚ) (hiv : 0 < interval) :
    timeout ≤ ((0 : ℚ) + (waitFuel timeout interval : ℕ)) * interval := by
  rcases le_or_lt timeout 0 with ht | ht
  · have : (0 : ℚ) ≤ ((waitFuel timeout interval : ℕ) : ℚ) * interval := by
      positivity
    linarith
  · have hq : 0 < timeout / interval := div_pos ht hiv
    have hceil : (0 : ℤ) ≤ Int.ceil (timeout / interval) := by
      exact_mod_cast le_of_lt (Int.ceil_pos.mpr hq)
    have hle : timeout / interval ≤ ((Int.ceil (timeout / interval)).toNat : ℚ) := by
      have h1 : timeout / interval ≤ ((Int.ceil (timeout / interval) : ℤ) : ℚ) :=
        Int.le_ceil _
      rw [← Int.toNat_of_nonneg hceil] at h1
      exact_mod_cast h1
    have hfuel : timeout / interval ≤ ((waitFuel timeout interval : ℕ) : ℚ) := by
      unfold waitFuel
      push_cast
      linarith
    calc timeout = (timeout / interval) * interval := by field_simp
    _ ≤ ((waitFuel timeout interval : ℕ) : ℚ) * interval := by nlinarith
    _ = ((0 : ℚ) + (waitFuel timeout interval : ℕ)) * interval := by ring

theorem waitUntil_none (pred : ℕ → Bool) (timeout interval : ℚ)
    (hiv : 0 < interval) (h : waitUntil pred timeout interval = none) :
    ∀ (j : ℕ), (j : ℚ) * interval < timeout → pred j = false := by
  intro j hj
  exact waitLoop_none pred timeout interval hiv (waitFuel timeout interval) 0
    (by simpa using waitFuel_covers timeout interval hiv) h j (Nat.zero_le j) hj

theorem waitUntil_first (pred : ℕ → Bool) (timeout interval : ℚ)
    (ht : 0 < timeout) (hp : pred 0 = true) :
    waitUntil pred timeout interval = some 0 := by
  unfold waitUntil waitFuel
  rw [waitLoop]
  rw [if_pos (by simpa using ht), if_pos hp]

/- ==============================
   EXTRACTION LEMMAS
   ============================== -/

theorem processCard_skip_no_update (c : Card) (seen : List String) :
    (∀ r u, processCard c seen ≠ .ok (some (r, u))) →
    ∀ idx rest p,
      parse_go p (c :: rest) idx seen =
        if capHit p idx then ([], seen) else parse_go p rest (idx + 1) seen := by
  intro hno idx rest p
  rw [parse_go]
  by_cases hcap : capHit p idx = true
  · rw [if_pos hcap, if_pos hcap]
  · rw [if_neg hcap, if_neg hcap]
    cases hpc : processCard c seen with
    | error e => rfl
    | ok o =>
      cases o with
      | none => rfl
      | some ru => exact absurd hpc (hno ru.1 ru.2)

theorem parse_go_cap_length (k : ℕ) (hk : k ≠ 0) :
    ∀ (cards : List Card) (idx : ℕ) (seen : List String),
      (parse_go (some k) cards idx seen).1.length ≤ k - idx := by
  intro cards
  induction cards with
  | nil => intro idx seen; simp [parse_go]
  | cons c rest ih =>
    intro idx seen
    rw [parse_go]
    by_cases hcap : capHit (some k) idx = true
    · rw [if_pos hcap]; simp
    · rw [if_neg hcap]
      have hidx : idx < k := by
        by_contra hge
        apply hcap
        simp [capHit, hk]
        omega
      cases hpc : processCard c seen with
      | error e =>
        dsimp only
        have := ih (idx + 1) seen
        omega
      | ok o =>
        cases o with
        | none =>
          dsimp only
          have := ih (idx + 1) seen
          omega
        | some ru =>
          obtain ⟨r, u⟩ := ru
          dsimp only
          have := ih (idx + 1) (u :: seen)
          simp only [List.length_cons]
          omega

theorem parse_go_none_idx :
    ∀ (cards : List Card) (idx idx' : ℕ) (seen : List String),
      parse_go none cards idx seen = parse_go none cards idx' seen := by
  intro cards
  induction cards with
  | nil => intro idx idx' seen; rfl
  | cons c rest ih =>
    intro idx idx' seen
    rw [parse_go, parse_go]
    have hcap : capHit none idx = false := rfl
    have hcap' : capHit none idx' = false := rfl
    rw [hcap, hcap']
    simp only [Bool.false_eq_true, if_false]
    cases hpc : processCard c seen with
    | error e => exact ih (idx + 1) (idx' + 1) seen
    | ok o =>
      cases o with
      | none => exact ih (idx + 1) (idx' + 1) seen
      | some ru =>
        obtain ⟨r, u⟩ := ru
        dsimp only
        rw [ih (idx + 1) (idx' + 1) (u :: seen)]

theorem parse_go_zero_cap :
    ∀ (cards : List Card) (idx : ℕ) (seen : List String),
      parse_go (some 0) cards idx seen = parse_go none cards idx seen := by
  intro cards
  induction cards with
  | nil => intro idx seen; rfl
  | cons c rest ih =>
    intro idx seen
    rw [parse_go, parse_go]
    have h0 : capHit (some 0) idx = false := rfl
    have hn : capHit none idx = false := rfl
    rw [h0, hn]
    simp only [Bool.false_eq_true, if_false]
    cases hpc : processCard c seen with
    | error e => exact ih (idx + 1) seen
    | ok o =>
      cases o with
      | none => exact ih (idx + 1) seen
      | some ru =>
        obtain ⟨r, u⟩ := ru
        dsimp only
        rw [ih (idx + 1) (u :: seen)]

/- ==============================
   NAVIGATION LEMMAS
   ============================== -/

theorem goto_go_none_iff (envs : ℕ → AttemptEnv) :
    ∀ (l : List ℕ) (made : ℕ),
      ((goto_go envs l made).2 = none ↔ ∀ a ∈ l, attempt_confirmed (envs a) = false) := by
  intro l
  induction l with
  | nil => intro made; simp [goto_go]
  | cons a rest ih =>
    intro made
    rw [goto_go]
    by_cases hc : attempt_confirmed (envs a) = true
    · rw [if_pos hc]
      simp [hc]
    · rw [if_neg hc]
      have hc' : attempt_confirmed (envs a) = false := by
        simpa using hc
      simp [ih, hc']

theorem goto_go_none_fst (envs : ℕ → AttemptEnv) :
    ∀ (l : List ℕ) (made : ℕ), (goto_go envs l made).2 = none →
      (goto_go envs l made).1 = made + l.length := by
  intro l
  induction l with
  | nil => intro made _; simp [goto_go]
  | cons a rest ih =>
    intro made h
    rw [goto_go] at h ⊢
    by_cases hc : attempt_confirmed (envs a) = true
    · rw [if_pos hc] at h; simp at h
    · rw [if_neg hc] at h ⊢
      rw [ih (made + 1) h]
      simp only [List.length_cons]
      omega

theorem goto_go_some_range (envs : ℕ → AttemptEnv) :
    ∀ (n s made a : ℕ), (goto_go envs (List.range' s n) made).2 = some a →
      attempt_confirmed (envs a) = true ∧ s ≤ a ∧ a < s + n ∧
      (goto_go envs (List.range' s n) made).1 = made + (a + 1 - s) := by
  intro n
  induction n with
  | zero =>
    intro s made a h
    simp [List.range', goto_go] at h
  | succ m ih =>
    intro s made a h
    rw [List.range'_succ s m 1] at h ⊢
    rw [goto_go] at h ⊢
    by_cases hc : attempt_confirmed (envs s) = true
    · rw [if_pos hc] at h ⊢
      obtain rfl : s = a := by simpa using h
      exact ⟨hc, le_refl s, by omega, by simp⟩
    · rw [if_neg hc] at h ⊢
      obtain ⟨h1, h2, h3, h4⟩ := ih (s + 1) (made + 1) a h
      exact ⟨h1, by omega, by omega, by rw [h4]; omega⟩

/- ==============================
   DEEP-QUERY LEMMAS
   ============================== -/

theorem nodeSize_pos (n : Node) : 1 ≤ nodeSize n := by
  obtain ⟨s, sh, ch⟩ := n
  rw [nodeSize]
  omega

theorem perm_middle_swap {α : Type} (B C D : List α) :
    (B ++ (C ++ D)).Perm (C ++ (B ++ D)) := by
  rw [← List.append_assoc, ← List.append_assoc]
  exact List.perm_append_comm.append_right D

mutual
theorem composedNode_perm : ∀ n : Node,
    (composedNode n).Perm
      (lightNode n ++ ((lightNode n).filter Node.hasShadow).flatMap
        (fun h => composedForest h.shadowForest))
  | .mk s sh ch => by
    rw [composedNode, lightNode]
    cases sh with
    | none =>
      rw [List.filter_cons_of_neg (by simp [Node.hasShadow, Node.shadowRoot])]
      rw [composedOpt, List.append_nil, List.cons_append]
      exact (composedForest_perm ch).cons (Node.mk s none ch)
    | some l =>
      rw [List.filter_cons_of_pos (by simp [Node.hasShadow, Node.shadowRoot])]
      rw [composedOpt, List.cons_append, List.flatMap_cons]
      have hshf : (Node.mk s (some l) ch).shadowForest = l := rfl
      rw [hshf]
      refine List.Perm.cons (Node.mk s (some l) ch) ?_
      have h1 := (composedForest_perm ch).append_right (composedForest l)
      refine h1.trans ?_
      rw [List.append_assoc]
      exact List.Perm.append_left (lightForest ch) (List.perm_append_comm)

theorem composedForest_perm : ∀ F : List Node,
    (composedForest F).Perm
      (lightForest F ++ ((lightForest F).filter Node.hasShadow).flatMap
        (fun h => composedForest h.shadowForest))
  | [] => by
    rw [composedForest, lightForest]
    exact List.Perm.refl _
  | n :: ns => by
    rw [composedForest, lightForest, List.filter_append, List.flatMap_append]
    have h1 := (composedNode_perm n).append (composedForest_perm ns)
    refine h1.trans ?_
    rw [List.append_assoc, List.append_assoc]
    exact List.Perm.append_left (lightNode n) (perm_middle_swap _ _ _)
end

theorem deep_perm_composed : ∀ F : List Node,
    (deepQuerySelectorAll F).Perm ((composedForest F).filter Node.selMatch) := by
  suffices H : ∀ (m : ℕ) (F : List Node), forestSize F ≤ m →
      (deepQuerySelectorAll F).Perm ((composedForest F).filter Node.selMatch) by
    intro F
    exact H (forestSize F) F (le_refl _)
  intro m
  induction m with
  | zero =>
    intro F hF
    cases F with
    | nil =>
      rw [deepQuerySelectorAll]
      simp [querySelectorAllF, allShadowHosts, lightForest, composedForest]
    | cons n ns =>
      exfalso
      have h1 := nodeSize_pos n
      rw [forestSize] at hF
      omega
  | succ m ih =>
    intro F hF
    have hstep : ∀ h ∈ allShadowHosts F,
        (deepQuerySelectorAll h.shadowForest).Perm
          ((composedForest h.shadowForest).filter Node.selMatch) := by
      intro h hm
      apply ih
      have h1 : nodeSize h ≤ forestSize F :=
        size_le_of_mem_lightForest F h (List.mem_filter.mp hm).1
      have h2 : forestSize h.shadowForest < nodeSize h := shadowForest_size_lt h
      omega
    rw [deepQuerySelectorAll]
    have hattach : (allShadowHosts F).attach.flatMap
        (fun h => deepQuerySelectorAll h.1.shadowForest) =
        (allShadowHosts F).flatMap (fun h => deepQuerySelectorAll h.shadowForest) := by
      simp
    rw [hattach]
    have h3 : (querySelectorAllF F ++ (allShadowHosts F).flatMap
          (fun h => deepQuerySelectorAll h.shadowForest)).Perm
        (querySelectorAllF F ++ (allShadowHosts F).flatMap
          (fun h => (composedForest h.shadowForest).filter Node.selMatch)) :=
      List.Perm.append_left _ (List.Perm.flatMap_left _ hstep)
    refine h3.trans ?_
    have h4 : querySelectorAllF F ++ (allShadowHosts F).flatMap
          (fun h => (composedForest h.shadowForest).filter Node.selMatch) =
        (lightForest F ++ (allShadowHosts F).flatMap
          (fun h => composedForest h.shadowForest)).filter Node.selMatch := by
      rw [List.filter_append, List.filter_flatMap, querySelectorAllF]
    rw [h4]
    exact ((composedForest_perm F).filter Node.selMatch).symm

/- ==============================
   MEMBERSHIP HELPERS
   ============================== -/

theorem mem_range_one (k a : ℕ) : a ∈ List.range' 1 k ↔ 1 ≤ a ∧ a ≤ k := by
  simp only [List.mem_range']
  constructor
  · rintro ⟨i, hi, rfl⟩
    omega
  · intro ⟨h1, h2⟩
    exact ⟨a - 1, by omega, by omega⟩

/- ==============================
   CLAIMS
   ============================== -/

/-- Claim C1: the run-level dedup invariant fails on the code.  In a run over
one page whose first card's href is the absolute URL of posting 10 and whose
second card's href is the root-relative form of the same posting, both cards
are emitted with the same resolved `URL`: the membership test `url in seen`
(scraper.py line 195) uses the raw href before `urljoin`, while `seen.add`
(line 206) stores the resolved URL, so the relative form is not found in the
seen set even though its resolution was already emitted. -/
theorem c1_dedup_violated_on_mixed_hrefs :
    (run_emitted [[cardAbs, cardRel]] none).map Record.url =
      ["https://purchasing.alberta.ca/posting/10",
       "https://purchasing.alberta.ca/posting/10"] ∧
    ¬ ((run_emitted [[cardAbs, cardRel]] none).map Record.url).Nodup := by
  exact ⟨by decide, by decide⟩

/-- Claim C2 counterexample: with a page-number input field present but both
the native typing and the synthetic-event fallback failing,
`try_type_page_number` returns `False` and `goto_page` proceeds to Strategy B
— Strategy B is attempted although an input field was found, refuting
"Strategy B is attempted only when no page-number input field was found". -/
theorem c2_counterexample :
    strategyB_attempted ⟨true, false, false, [], false⟩ = true ∧
    AttemptEnv.inputsFound ⟨true, false, false, [], false⟩ = true :=
  ⟨rfl, rfl⟩

/-- Claim C2 (amended): in every attempt, Strategy B is attempted exactly when
`try_type_page_number` reports failure — when no page-number input field was
found, or when the field exists but native interaction was rejected and the
synthetic input/keydown/keyup fallback also failed.  With the field present, a
rejected native interaction falls back to the synthetic events (never directly
to Strategy B), and only the failure of both leads to Strategy B. -/
theorem c2_strategyB_iff_typing_failed (e : AttemptEnv) :
    strategyB_attempted e =
      (!e.inputsFound || (!e.nativeTypeOk && !e.syntheticTypeOk)) ∧
    try_type_page_number e =
      (e.inputsFound && (e.nativeTypeOk || e.syntheticTypeOk)) := by
  obtain ⟨i, n, s, hits, w⟩ := e
  cases i <;> cases n <;> cases s <;> exact ⟨rfl, rfl⟩

/-- Claim C3: `goto_page` raises its navigation-exhausted `RuntimeError` iff
exactly `MAX_RETRIES_PER_PAGE` attempts were made and none of them was
confirmed by `wait_for_page_change`; it never raises with an attempt to
spare, and whenever some attempt within the bound is confirmed it returns
normally during the first such attempt. -/
theorem c3_retry_bound (envs : ℕ → AttemptEnv) :
    ((goto_page envs).2 = none ↔
      ((goto_page envs).1 = MAX_RETRIES_PER_PAGE ∧
        ∀ a, 1 ≤ a → a ≤ MAX_RETRIES_PER_PAGE →
          attempt_confirmed (envs a) = false)) ∧
    (∀ a, (goto_page envs).2 = some a →
      (attempt_confirmed (envs a) = true ∧ 1 ≤ a ∧ a ≤ MAX_RETRIES_PER_PAGE ∧
        (goto_page envs).1 = a)) := by
  constructor
  · constructor
    · intro h
      refine ⟨?_, ?_⟩
      · have hfst := goto_go_none_fst envs (List.range' 1 MAX_RETRIES_PER_PAGE) 0 h
        unfold goto_page
        rw [hfst]
        simp
      · intro a h1 h5
        exact (goto_go_none_iff envs (List.range' 1 MAX_RETRIES_PER_PAGE) 0).mp h a
          ((mem_range_one MAX_RETRIES_PER_PAGE a).mpr ⟨h1, h5⟩)
    · intro ⟨hcnt, hall⟩
      apply (goto_go_none_iff envs (List.range' 1 MAX_RETRIES_PER_PAGE) 0).mpr
      intro a hmem
      obtain ⟨h1, h5⟩ := (mem_range_one MAX_RETRIES_PER_PAGE a).mp hmem
      exact hall a h1 h5
  · intro a h
    obtain ⟨h1, h2, h3, h4⟩ :=
      goto_go_some_range envs MAX_RETRIES_PER_PAGE 1 0 a h
    refine ⟨h1, h2, by omega, ?_⟩
    unfold goto_page
    omega

/-- Claim C4: `wait_for_page_change` never reports success while the observed
fingerprint equals the sentinel `("", "")`: for every previous fingerprint,
success at poll `i` implies the fingerprint observed at poll `i` is both
non-sentinel and different from the previous fingerprint. -/
theorem c4_no_sentinel_success (fps : ℕ → Fingerprint) (prev_fp : Fingerprint)
    (timeout : ℚ) (i : ℕ)
    (h : wait_for_page_change fps prev_fp timeout = some i) :
    fps i ≠ ("", "") ∧ fps i ≠ prev_fp := by
  have hp := (waitUntil_some (fun j => decide (fps j ≠ ("", "") ∧ fps j ≠ prev_fp))
    timeout 0.3 i h).1
  exact of_decide_eq_true hp

theorem c4_witness :
    (("t", "u") : Fingerprint) ≠ ("", "") ∧
    (("t", "u") : Fingerprint) ≠ ("x", "y") :=
  c4_no_sentinel_success (fun _ => ("t", "u")) ("x", "y") 1 0
    (by simp [wait_for_page_change, waitUntil, waitLoop])

/-- Claim C5: the base sleep of `goto_page`'s backoff excluding jitter,
`BASE_RATE_LIMIT + attempt * 1.2`, is strictly increasing in the attempt
number. -/
theorem c5_backoff_strict_mono (a1 a2 : ℕ) (h : a1 < a2) :
    backoff_base a1 < backoff_base a2 := by
  unfold backoff_base
  have hc : (a1 : ℚ) < (a2 : ℚ) := by exact_mod_cast h
  have h12 : (0 : ℚ) < 1.2 := by norm_num
  nlinarith

theorem c5_witness : backoff_base 1 < backoff_base 2 :=
  c5_backoff_strict_mono 1 2 (by norm_num)

/-- Claim C6: with a configured positive per-page cap `k` (a cap of `0` is
falsy in Python and disables the cap, see C10), `parse_current_page` returns
at most `k` records, however many cards are rendered: the cap bounds the
number of enumerated cards and hence of records — it is a maximum count, not
a page index. -/
theorem c6_cap_bounds_records (k : ℕ) (hk : 0 < k) (cards : List Card)
    (seen : List String) :
    (parse_current_page cards (some k) seen).1.length ≤ k := by
  have h := parse_go_cap_length k (by omega) cards 0 seen
  unfold parse_current_page
  omega

theorem c6_witness :
    (parse_current_page [cardAbs, cardOther, cardRel] (some 1) []).1.length ≤ 1 :=
  c6_cap_bounds_records 1 (by norm_num) [cardAbs, cardOther, cardRel] []

/-- Claim C7: a failure while reading a single card's fields is caught and
only that card is skipped.  A card whose processing never yields a record —
in particular one whose link/title/URL/description reads raise, which makes
`processCard` return `Except.error` — leaves the page's extraction otherwise
unchanged: the records and the final seen set are those of the remaining
cards (stated with no cap configured, the run's configuration). -/
theorem c7_failing_card_skipped (pre post : List Card) (f : Card)
    (seen : List String)
    (hf : ∀ s, processCard f s = .error () ∨ processCard f s = .ok none) :
    parse_current_page (pre ++ f :: post) none seen =
      parse_current_page (pre ++ post) none seen := by
  unfold parse_current_page
  suffices H : ∀ (pre : List Card) (idx : ℕ) (seen : List String),
      parse_go none (pre ++ f :: post) idx seen =
        parse_go none (pre ++ post) idx seen by
    exact H pre 0 seen
  intro pre
  induction pre with
  | nil =>
    intro idx seen
    simp only [List.nil_append]
    rw [parse_go]
    have hcap : capHit none idx = false := rfl
    rw [hcap]
    simp only [Bool.false_eq_true, if_false]
    rcases hf seen with he | hn
    · rw [he]
      dsimp only
      exact parse_go_none_idx post (idx + 1) idx seen
    · rw [hn]
      dsimp only
      exact parse_go_none_idx post (idx + 1) idx seen
  | cons c pre ih =>
    intro idx seen
    simp only [List.cons_append]
    rw [parse_go, parse_go]
    have hcap : capHit none idx = false := rfl
    rw [hcap]
    simp only [Bool.false_eq_true, if_false]
    cases hpc : processCard c seen with
    | error e => exact ih (idx + 1) seen
    | ok o =>
      cases o with
      | none => exact ih (idx + 1) seen
      | some ru =>
        obtain ⟨r, u⟩ := ru
        dsimp only
        rw [ih (idx + 1) (u :: seen)]

theorem c7_witness :
    parse_current_page [cardAbs, cardFailing, cardOther] none [] =
      parse_current_page [cardAbs, cardOther] none [] :=
  c7_failing_card_skipped [cardAbs] [cardOther] cardFailing []
    (fun _ => Or.inl rfl)

/-- Claim C8 counterexample: at timeout `0`, `wait_for_any_result` raises
`TimeoutException` without ever evaluating its predicate, although the
predicate is true at the first poll (the deep query returns a non-empty
list) — refuting "return success immediately if the predicate is true, for
every timeout value passed in".  The while condition is checked before the
first evaluation, so a non-positive budget fails immediately. -/
theorem c8_counterexample :
    (!(deepQuerySelectorAll [Node.mk true none []]).isEmpty) = true ∧
    wait_for_any_result (fun _ => [Node.mk true none []]) 0 = none := by
  constructor
  · rw [deepQuerySelectorAll]
    simp [querySelectorAllF, allShadowHosts, lightForest, lightNode, Node.selMatch,
      Node.hasShadow, Node.shadowRoot]
  · simp [wait_for_any_result, waitUntil, waitLoop]

/-- Claim C8 (amended): for every strictly positive timeout, both bounded
waits evaluate their predicate before any sleep and return success at the
first poll when it already holds; and they time out only if the predicate
was false at every poll that began within the time budget. -/
theorem c8_first_poll_and_timeout (timeout : ℚ) (ht : 0 < timeout)
    (doms : ℕ → List Node) (fps : ℕ → Fingerprint) (prev_fp : Fingerprint) :
    ((!(deepQuerySelectorAll (doms 0)).isEmpty) = true →
      wait_for_any_result doms timeout = some 0) ∧
    (wait_for_any_result doms timeout = none →
      ∀ (j : ℕ), (j : ℚ) * 0.4 < timeout →
        (!(deepQuerySelectorAll (doms j)).isEmpty) = false) ∧
    ((fps 0 ≠ ("", "") ∧ fps 0 ≠ prev_fp) →
      wait_for_page_change fps prev_fp timeout = some 0) ∧
    (wait_for_page_change fps prev_fp timeout = none →
      ∀ (j : ℕ), (j : ℚ) * 0.3 < timeout →
        ¬(fps j ≠ ("", "") ∧ fps j ≠ prev_fp)) := by
  refine ⟨?_, ?_, ?_, ?_⟩
  · intro hp
    exact waitUntil_first _ timeout 0.4 ht hp
  · intro h j hj
    exact waitUntil_none _ timeout 0.4 (by norm_num) h j hj
  · intro hp
    exact waitUntil_first _ timeout 0.3 ht (decide_eq_true hp)
  · intro h j hj
    have := waitUntil_none _ timeout 0.3 (by norm_num) h j hj
    simpa using this

theorem c8_witness :
    wait_for_any_result (fun _ => [Node.mk true none []]) 1 = some 0 :=
  (c8_first_poll_and_timeout 1 (by norm_num) (fun _ => [Node.mk true none []])
    (fun _ => ("t", "u")) ("", "")).1
    (by
      rw [deepQuerySelectorAll]
      simp [querySelectorAllF, allShadowHosts, lightForest, lightNode,
        Node.selMatch, Node.hasShadow, Node.shadowRoot])

/-- Claim C9: for every assignment of selector matches, the deep query puts
the host tree's matches before everything found in shadow trees, its output
is a permutation of the selector's matches over the whole composed tree (so
every hosting element's shadow tree is descended into, at any depth), and it
returns the empty sequence — rather than failing — exactly when no element of
the composed tree matches. -/
theorem c9_deep_query_composed (F : List Node) :
    (∃ rest, deepQuerySelectorAll F = querySelectorAllF F ++ rest) ∧
    (deepQuerySelectorAll F).Perm ((composedForest F).filter Node.selMatch) ∧
    (deepQuerySelectorAll F = [] ↔
      ∀ e ∈ composedForest F, e.selMatch = false) := by
  refine ⟨⟨_, by rw [deepQuerySelectorAll]⟩, deep_perm_composed F, ?_⟩
  constructor
  · intro h e he
    have hperm := deep_perm_composed F
    rw [h] at hperm
    have hnil : (composedForest F).filter Node.selMatch = [] :=
      hperm.symm.eq_nil
    have := List.filter_eq_nil_iff.mp hnil e he
    simpa using this
  · intro hall
    have hnil : (composedForest F).filter Node.selMatch = [] :=
      List.filter_eq_nil_iff.mpr (fun a ha => by simp [hall a ha])
    have hperm := deep_perm_composed F
    rw [hnil] at hperm
    exact hperm.eq_nil

/-- Claim C10: a configured per-page cap of `0` is falsy in Python, so the
guard `per_page_max and idx >= per_page_max` never fires: `parse_current_page`
with cap `0` behaves exactly like the uncapped run — it applies no cap at
all rather than returning zero records. -/
theorem c10_zero_cap_is_no_cap (cards : List Card) (seen : List String) :
    parse_current_page cards (some 0) seen =
      parse_current_page cards none seen := by
  unfold parse_current_page
  exact parse_go_zero_cap cards 0 seen
